import Mathlib

/-
Verification of the streaming completion protocol engine of the GraceAi
chatsaver server (src/chatsaver/server.py), as a shallow embedding.

The embedding models:
  - create_prompt            (server.py lines 68-86)
  - generate_stream_response (server.py lines 89-195)
  - chat_completion, the non-streaming branch (server.py lines 219-256)

Python dictionaries coming from the llama backend are modelled by
structures whose optional keys become Option fields; Python truthiness of
a string value ("" and a missing key are falsy) is modelled explicitly at
each use site, mirroring the conditionals of the source.
-/

set_option autoImplicit false

namespace ChatSaver

/-- A chat message as in the pydantic model ChatMessage: a role string and
a content string (server.py lines 46-48). -/
structure ChatMessage where
  role : String
  content : String
deriving DecidableEq

/-- The role-delimited block appended to the prompt for one message: the
if/elif chain of create_prompt (server.py lines 71-77); a message whose
role is none of system/user/assistant contributes nothing. -/
def messageBlock (m : ChatMessage) : String :=
  if m.role = "system" then "<|system|>\n" ++ m.content ++ "</s>\n"
  else if m.role = "user" then "<|user|>\n" ++ m.content ++ "</s>\n"
  else if m.role = "assistant" then "<|assistant|>\n" ++ m.content ++ "</s>\n"
  else ""

/-- The loop of create_prompt (server.py lines 71-77): concatenation of the
role-delimited blocks in message order. -/
def messagesPrompt : List ChatMessage → String
  | [] => ""
  | m :: rest => messageBlock m ++ messagesPrompt rest

/-- create_prompt (server.py lines 68-86): the message blocks, then the
assistant-priming tag, then the chain-of-thought phrase when enabled. -/
def create_prompt (messages : List ChatMessage) (enable_cot : Bool) : String :=
  (messagesPrompt messages ++ "<|assistant|>\n") ++
    (if enable_cot then "让我思考一下。\n\n" else "")

/-- The three roles recognized by create_prompt. -/
def recognizedRole (m : ChatMessage) : Bool :=
  m.role = "system" || m.role = "user" || m.role = "assistant"

/-- One choice inside a chunk of the backend stream: the optional "text"
and "finish_reason" keys read by generate_stream_response
(server.py lines 139, 162). A missing key is none; Python truthiness of
the value is checked at the use sites. -/
structure StreamChoice where
  text : Option String
  finish_reason : Option String
deriving DecidableEq

/-- One chunk pulled from the backend stream (server.py line 131): its
optional "choices" list ("choices" may be absent, modelled none). -/
structure StreamChunk where
  choices : Option (List StreamChoice)
deriving DecidableEq

/-- The guard at server.py line 135: the chunk has a "choices" key and the
list is non-empty; then choice = chunk["choices"][0]. -/
def headChoice (ev : StreamChunk) : Option StreamChoice :=
  match ev.choices with
  | some (c :: _) => some c
  | _ => none

/-- A wire-level protocol chunk of the streaming response, abstracting the
json-serialized SSE lines of server.py: start (line 127), delta (line 159),
endChunk (line 178), terminator for the literal line "data: [DONE]"
(line 184), and error (line 195). Per-stream constants (id, created,
model) carried by every chunk are identical across one stream and are
omitted. -/
inductive ProtocolChunk where
  | start
  | delta (content : String)
  | endChunk (finish_reason : String)
  | error (message : String) (etype : String)
  | terminator
deriving DecidableEq

/-- The for-loop body plus loop exit of generate_stream_response
(server.py lines 131-184): consume backend chunks in order; a chunk with a
truthy "text" yields one delta (lines 139-159); a chunk with a truthy
"finish_reason" additionally yields the end chunk and breaks, after which
the terminator line is yielded (lines 162-184); when the stream is
exhausted the terminator is yielded (line 184) unless the pull that found
the stream exhausted instead raised, in which case the except handler
yields a single error chunk (lines 187-195). The argument err is the
exception (its message) that the backend raises at the pull following the
listed chunks, none if the stream ends normally. -/
def processStream (err : Option String) : List StreamChunk → List ProtocolChunk
  | [] =>
    match err with
    | none => [ProtocolChunk.terminator]
    | some m => [ProtocolChunk.error m "internal_error"]
  | ev :: rest =>
    match headChoice ev with
    | none => processStream err rest
    | some choice =>
      let ds : List ProtocolChunk :=
        match choice.text with
        | some t => if t = "" then [] else [ProtocolChunk.delta t]
        | none => []
      match choice.finish_reason with
      | some r =>
        if r = "" then ds ++ processStream err rest
        else ds ++ [ProtocolChunk.endChunk r, ProtocolChunk.terminator]
      | none => ds ++ processStream err rest

/-- The backend behaviour observed by one run of generate_stream_response:
either model.create_completion itself raises (failed, before any chunk is
yielded to the client), or it returns a stream that yields the listed
chunks and then either is exhausted (err = none) or raises (err = some
message) at the next pull. -/
inductive BackendStream where
  | failed (msg : String)
  | events (evs : List StreamChunk) (err : Option String)

/-- generate_stream_response (server.py lines 89-195): on a backend
failure before the first yield, the except handler emits only the error
chunk; otherwise the start chunk (line 127) followed by the processing of
the stream. -/
def generate_stream_response : BackendStream → List ProtocolChunk
  | BackendStream.failed msg => [ProtocolChunk.error msg "internal_error"]
  | BackendStream.events evs err => ProtocolChunk.start :: processStream err evs

/-- True when the chunk makes generate_stream_response emit the end chunk
and break (server.py line 162): its head choice exists and carries a
truthy finish_reason. -/
def eventFinishes (ev : StreamChunk) : Bool :=
  match headChoice ev with
  | some choice =>
    match choice.finish_reason with
    | some r => if r = "" then false else true
    | none => false
  | none => false

/-- The delta text a backend chunk contributes, if any: its head choice's
"text" when present and non-empty (the guard at server.py line 139). -/
def eventFragment (ev : StreamChunk) : Option String :=
  match headChoice ev with
  | some choice =>
    match choice.text with
    | some t => if t = "" then none else some t
    | none => none
  | none => none

/-- The prefix of the backend stream that the framer actually pulls: all
chunks up to and including the first finishing one (the break at
server.py line 179 stops the pull there). -/
def consumed : List StreamChunk → List StreamChunk
  | [] => []
  | ev :: rest => if eventFinishes ev then [ev] else ev :: consumed rest

/-- The content of a delta chunk, none for every other chunk kind. -/
def deltaContent : ProtocolChunk → Option String
  | ProtocolChunk.delta t => some t
  | _ => none

/-- Whether a protocol chunk is a delta chunk. -/
def isDeltaChunk : ProtocolChunk → Bool
  | ProtocolChunk.delta _ => true
  | _ => false

/-- Whether a protocol chunk is an end chunk. -/
def isEndChunk : ProtocolChunk → Bool
  | ProtocolChunk.endChunk _ => true
  | _ => false

/- Non-streaming path. -/

/-- Python whitespace stripped by str.strip for ascii text. -/
def isPyWhitespace (c : Char) : Bool :=
  c = ' ' || c = '\t' || c = '\n' || c = '\r' || c = '\x0b' || c = '\x0c'

/-- str.strip(): remove leading and trailing whitespace
(server.py line 244). -/
def pyStrip (s : String) : String :=
  String.mk (((s.data.dropWhile isPyWhitespace).reverse.dropWhile isPyWhitespace).reverse)

/-- One element of completion["choices"] of a non-streaming backend
result: its "text" and "finish_reason" values (server.py lines 244-246). -/
structure NSChoice where
  text : String
  finish_reason : Option String
deriving DecidableEq

/-- completion["usage"] of a backend result (server.py lines 250-252). -/
structure Usage where
  prompt_tokens : Nat
  completion_tokens : Nat
  total_tokens : Nat
deriving DecidableEq

/-- A non-streaming backend result as read by chat_completion. -/
structure Completion where
  choices : List NSChoice
  usage : Usage
deriving DecidableEq

/-- The message object of a response choice (server.py lines 242-245). -/
structure RespMessage where
  role : String
  content : String
deriving DecidableEq

/-- One element of the response's "choices" (server.py lines 240-247). -/
structure RespChoice where
  index : Nat
  message : RespMessage
  finish_reason : Option String
deriving DecidableEq

/-- The response assembled by the non-streaming branch (server.py lines
234-254); id, object, created and model are request-constant metadata and
are omitted. -/
structure ChatResponse where
  choices : List RespChoice
  usage : Usage
deriving DecidableEq

/-- The non-streaming branch of chat_completion (server.py lines 219-256):
completion["choices"][0] is read (an empty choices list would raise, which
the route turns into a 500: modelled none); the content is the stripped
text, finish_reason and the three usage counts are copied. -/
def chat_completion (completion : Completion) : Option ChatResponse :=
  match completion.choices with
  | [] => none
  | c :: _ =>
    some
      { choices :=
          [{ index := 0,
             message := { role := "assistant", content := pyStrip c.text },
             finish_reason := c.finish_reason }],
        usage :=
          { prompt_tokens := completion.usage.prompt_tokens,
            completion_tokens := completion.usage.completion_tokens,
            total_tokens := completion.usage.total_tokens } }

/- Helper lemmas. -/

theorem string_empty_append (s : String) : "" ++ s = s := by
  cases s
  rfl

/-- filter keeps or drops the head according to recognizedRole, and the
prompt of the filtered list equals the prompt of the original list. -/
theorem messagesPrompt_filter (ms : List ChatMessage) :
    messagesPrompt (ms.filter recognizedRole) = messagesPrompt ms := by
  induction ms with
  | nil => rfl
  | cons m rest ih =>
    by_cases h : recognizedRole m = true
    · simp only [List.filter_cons, h, if_pos, messagesPrompt, ih]
    · have hb : messageBlock m = "" := by
        unfold messageBlock
        unfold recognizedRole at h
        simp only [Bool.or_eq_true, decide_eq_true_eq, not_or] at h
        obtain ⟨⟨h1, h2⟩, h3⟩ := h
        simp [h1, h2, h3]
      simp only [List.filter_cons, h, messagesPrompt, ih, hb, Bool.false_eq_true,
        if_false, string_empty_append]

/-- The three possible shapes of the chunk list produced after the start
chunk: deltas then terminator (stream exhausted), deltas then end chunk
then terminator (finish_reason seen), or deltas then a lone error chunk
(backend raised). -/
def StreamShape (l : List ProtocolChunk) : Prop :=
  (∃ ds : List String, l = ds.map ProtocolChunk.delta ++ [ProtocolChunk.terminator]) ∨
  (∃ ds : List String, ∃ r : String,
      l = ds.map ProtocolChunk.delta ++ [ProtocolChunk.endChunk r, ProtocolChunk.terminator]) ∨
  (∃ ds : List String, ∃ m : String,
      l = ds.map ProtocolChunk.delta ++ [ProtocolChunk.error m "internal_error"])

theorem streamShape_cons_delta (t : String) (l : List ProtocolChunk)
    (h : StreamShape l) : StreamShape (ProtocolChunk.delta t :: l) := by
  rcases h with ⟨ds, hd⟩ | ⟨ds, r, hd⟩ | ⟨ds, m, hd⟩
  · exact Or.inl ⟨t :: ds, by simp [hd]⟩
  · exact Or.inr (Or.inl ⟨t :: ds, r, by simp [hd]⟩)
  · exact Or.inr (Or.inr ⟨t :: ds, m, by simp [hd]⟩)

theorem processStream_shape (err : Option String) (evs : List StreamChunk) :
    StreamShape (processStream err evs) := by
  induction evs with
  | nil =>
    cases err with
    | none => exact Or.inl ⟨[], rfl⟩
    | some m => exact Or.inr (Or.inr ⟨[], m, rfl⟩)
  | cons ev rest ih =>
    cases hc : headChoice ev with
    | none => simpa [processStream, hc] using ih
    | some choice =>
      cases hf : choice.finish_reason with
      | none =>
        cases ht : choice.text with
        | none => simpa [processStream, hc, hf, ht] using ih
        | some t =>
          by_cases h0 : t = ""
          · simpa [processStream, hc, hf, ht, h0] using ih
          · simpa [processStream, hc, hf, ht, h0] using streamShape_cons_delta t _ ih
      | some r =>
        by_cases hr : r = ""
        · cases ht : choice.text with
          | none => simpa [processStream, hc, hf, ht, hr] using ih
          | some t =>
            by_cases h0 : t = ""
            · simpa [processStream, hc, hf, ht, hr, h0] using ih
            · simpa [processStream, hc, hf, ht, hr, h0] using streamShape_cons_delta t _ ih
        · cases ht : choice.text with
          | none =>
            refine Or.inr (Or.inl ⟨[], r, ?_⟩)
            simp [processStream, hc, hf, ht, hr]
          | some t =>
            by_cases h0 : t = ""
            · refine Or.inr (Or.inl ⟨[], r, ?_⟩)
              simp [processStream, hc, hf, ht, hr, h0]
            · refine Or.inr (Or.inl ⟨[t], r, ?_⟩)
              simp [processStream, hc, hf, ht, hr, h0]

/-- When no consumed chunk carries a truthy finish_reason, the whole
stream is consumed and the output is the deltas followed by the tail
determined by how the stream ended (processStream err []). -/
theorem processStream_no_finish (err : Option String) (evs : List StreamChunk) :
    (∀ ev ∈ evs, eventFinishes ev = false) →
    ∃ ds : List String,
      processStream err evs = ds.map ProtocolChunk.delta ++ processStream err [] := by
  induction evs with
  | nil => exact fun _ => ⟨[], (List.nil_append _).symm⟩
  | cons ev rest ih =>
    intro h
    have hev : eventFinishes ev = false := h ev (List.mem_cons_self ev rest)
    obtain ⟨ds, hd⟩ := ih (fun e he => h e (List.mem_cons_of_mem ev he))
    cases hc : headChoice ev with
    | none => exact ⟨ds, by simp [processStream, hc, hd]⟩
    | some choice =>
      cases hf : choice.finish_reason with
      | none =>
        cases ht : choice.text with
        | none => exact ⟨ds, by simp [processStream, hc, hf, ht, hd]⟩
        | some t =>
          by_cases h0 : t = ""
          · exact ⟨ds, by simp [processStream, hc, hf, ht, h0, hd]⟩
          · exact ⟨t :: ds, by simp [processStream, hc, hf, ht, h0, hd]⟩
      | some r =>
        have hr : r = "" := by
          by_contra hne
          simp [eventFinishes, hc, hf, hne] at hev
        cases ht : choice.text with
        | none => exact ⟨ds, by simp [processStream, hc, hf, ht, hr, hd]⟩
        | some t =>
          by_cases h0 : t = ""
          · exact ⟨ds, by simp [processStream, hc, hf, ht, hr, h0, hd]⟩
          · exact ⟨t :: ds, by simp [processStream, hc, hf, ht, hr, h0, hd]⟩

/-- The delta chunks of the output correspond exactly, in order, to the
non-empty text fragments of the consumed prefix of the backend stream. -/
theorem processStream_filterMap_delta (err : Option String) (evs : List StreamChunk) :
    (processStream err evs).filterMap deltaContent =
      (consumed evs).filterMap eventFragment := by
  induction evs with
  | nil => cases err <;> rfl
  | cons ev rest ih =>
    cases hc : headChoice ev with
    | none =>
      have hfin : eventFinishes ev = false := by simp [eventFinishes, hc]
      have hfrag : eventFragment ev = none := by simp [eventFragment, hc]
      simp [processStream, hc, consumed, hfin, hfrag, ih]
    | some choice =>
      cases hf : choice.finish_reason with
      | none =>
        have hfin : eventFinishes ev = false := by simp [eventFinishes, hc, hf]
        cases ht : choice.text with
        | none =>
          have hfrag : eventFragment ev = none := by simp [eventFragment, hc, ht]
          simp [processStream, hc, hf, ht, consumed, hfin, hfrag, ih]
        | some t =>
          by_cases h0 : t = ""
          · have hfrag : eventFragment ev = none := by simp [eventFragment, hc, ht, h0]
            simp [processStream, hc, hf, ht, h0, consumed, hfin, hfrag, ih]
          · have hfrag : eventFragment ev = some t := by simp [eventFragment, hc, ht, h0]
            simp [processStream, hc, hf, ht, h0, consumed, hfin, hfrag, ih, deltaContent]
      | some r =>
        by_cases hr : r = ""
        · have hfin : eventFinishes ev = false := by simp [eventFinishes, hc, hf, hr]
          cases ht : choice.text with
          | none =>
            have hfrag : eventFragment ev = none := by simp [eventFragment, hc, ht]
            simp [processStream, hc, hf, hr, ht, consumed, hfin, hfrag, ih]
          | some t =>
            by_cases h0 : t = ""
            · have hfrag : eventFragment ev = none := by simp [eventFragment, hc, ht, h0]
              simp [processStream, hc, hf, hr, ht, h0, consumed, hfin, hfrag, ih]
            · have hfrag : eventFragment ev = some t := by simp [eventFragment, hc, ht, h0]
              simp [processStream, hc, hf, hr, ht, h0, consumed, hfin, hfrag, ih, deltaContent]
        · have hfin : eventFinishes ev = true := by simp [eventFinishes, hc, hf, hr]
          cases ht : choice.text with
          | none =>
            have hfrag : eventFragment ev = none := by simp [eventFragment, hc, ht]
            simp [processStream, hc, hf, hr, ht, consumed, hfin, hfrag, deltaContent]
          | some t =>
            by_cases h0 : t = ""
            · have hfrag : eventFragment ev = none := by simp [eventFragment, hc, ht, h0]
              simp [processStream, hc, hf, hr, ht, h0, consumed, hfin, hfrag, deltaContent]
            · have hfrag : eventFragment ev = some t := by simp [eventFragment, hc, ht, h0]
              simp [processStream, hc, hf, hr, ht, h0, consumed, hfin, hfrag, deltaContent]

theorem terminator_not_in_deltas (ds : List String) :
    ProtocolChunk.terminator ∉ ds.map ProtocolChunk.delta := by
  simp

/- Claim theorems. -/

/-- C7: for the empty message list create_prompt does not fail and returns
only the assistant-priming tag, followed by the chain-of-thought phrase
when enable_cot is true. -/
theorem create_prompt_empty_messages (cot : Bool) :
    create_prompt [] cot =
      "<|assistant|>\n" ++ (if cot then "让我思考一下。\n\n" else "") := by
  cases cot <;> rfl

/-- C8: create_prompt silently skips messages with unrecognized roles: the
prompt it builds equals the prompt built from the list with every
unrecognized-role message removed. -/
theorem create_prompt_skips_unrecognized (messages : List ChatMessage) (cot : Bool) :
    create_prompt messages cot = create_prompt (messages.filter recognizedRole) cot := by
  unfold create_prompt
  rw [messagesPrompt_filter]

/-- C10: when the backend raises before the start chunk is yielded (during
prompt construction or stream creation), the client receives only the
error chunk and no start chunk precedes it. -/
theorem error_before_start (msg : String) :
    generate_stream_response (BackendStream.failed msg) =
      [ProtocolChunk.error msg "internal_error"] := rfl

/-- C1 counterexample: when the backend raises at the first pull, the
emitted sequence is [start, error] and contains no terminator at all, so
the terminator is not emitted unconditionally. -/
theorem terminator_unconditional_counterexample :
    ProtocolChunk.terminator ∉
      generate_stream_response (BackendStream.events [] (some "boom")) := by
  decide

/-- C1 amended: the terminator is emitted exactly once and as the final
emission whenever the stream terminates normally (end chunk or backend
exhaustion); when the stream terminates via an error chunk, the error
chunk is the final emission and no terminator is emitted at all. -/
theorem terminator_exactly_once_unless_error (b : BackendStream) :
    (∃ pre, generate_stream_response b = pre ++ [ProtocolChunk.terminator] ∧
        ProtocolChunk.terminator ∉ pre) ∨
    (∃ pre, ∃ m, generate_stream_response b = pre ++ [ProtocolChunk.error m "internal_error"] ∧
        ProtocolChunk.terminator ∉ pre) := by
  cases b with
  | failed m => exact Or.inr ⟨[], m, rfl, by simp⟩
  | events evs err =>
    rcases processStream_shape err evs with ⟨ds, hd⟩ | ⟨ds, r, hd⟩ | ⟨ds, m, hd⟩
    · refine Or.inl ⟨ProtocolChunk.start :: ds.map ProtocolChunk.delta, ?_, ?_⟩
      · simp [generate_stream_response, hd]
      · simp
    · refine Or.inl
        ⟨ProtocolChunk.start :: (ds.map ProtocolChunk.delta ++ [ProtocolChunk.endChunk r]), ?_, ?_⟩
      · simp [generate_stream_response, hd]
      · simp
    · refine Or.inr ⟨ProtocolChunk.start :: ds.map ProtocolChunk.delta, m, ?_, ?_⟩
      · simp [generate_stream_response, hd]
      · simp

/-- The chunk-sequence shape asserted by the claim: one start chunk, zero
or more delta chunks, exactly one terminal chunk (end or error), then the
terminator. -/
def claimedTail : List ProtocolChunk → Bool
  | [ProtocolChunk.endChunk _, ProtocolChunk.terminator] => true
  | [ProtocolChunk.error _ _, ProtocolChunk.terminator] => true
  | ProtocolChunk.delta _ :: rest => claimedTail rest
  | _ => false

/-- Whole-sequence version of the claimed shape. -/
def claimedShape : List ProtocolChunk → Bool
  | ProtocolChunk.start :: rest => claimedTail rest
  | _ => false

/-- C2 counterexample: a backend stream that is exhausted without ever
reporting a finish_reason produces [start, terminator], which has no
terminal chunk (neither end nor error) before the terminator, so the
claimed shape is violated. -/
theorem chunk_sequence_shape_counterexample :
    claimedShape (generate_stream_response (BackendStream.events [] none)) = false := by
  decide

/-- C2 amended: the emitted sequence is either a single error chunk alone
(failure before the start chunk was emitted), or exactly one start chunk
followed by zero or more delta chunks and then exactly one of: an end
chunk followed by the terminator, the terminator alone (backend exhausted
without a finish_reason), or an error chunk with no terminator. -/
theorem chunk_sequence_shape (b : BackendStream) :
    (∃ m, generate_stream_response b = [ProtocolChunk.error m "internal_error"]) ∨
    (∃ tail, generate_stream_response b = ProtocolChunk.start :: tail ∧ StreamShape tail) := by
  cases b with
  | failed m => exact Or.inl ⟨m, rfl⟩
  | events evs err => exact Or.inr ⟨processStream err evs, rfl, processStream_shape err evs⟩

/-- C3: a backend failure surfaces as exactly one error chunk whose
message is the exception text unaltered and whose type is
internal_error, with no end chunk ever emitted: both when the failure
precedes the start chunk and when the stream raises after yielding chunks
none of which carried a finish_reason. -/
theorem error_chunk_message_preserved (evs : List StreamChunk) (m : String)
    (h : ∀ ev ∈ evs, eventFinishes ev = false) :
    generate_stream_response (BackendStream.failed m) =
      [ProtocolChunk.error m "internal_error"] ∧
    ∃ ds : List String,
      generate_stream_response (BackendStream.events evs (some m)) =
        ProtocolChunk.start ::
          (ds.map ProtocolChunk.delta ++ [ProtocolChunk.error m "internal_error"]) := by
  refine ⟨rfl, ?_⟩
  obtain ⟨ds, hd⟩ := processStream_no_finish (some m) evs h
  exact ⟨ds, by simp [generate_stream_response, hd]; rfl⟩

/-- A backend chunk carrying only a text fragment, used by the witnesses. -/
def wDeltaEvent : StreamChunk :=
  { choices := some [{ text := some "Hello", finish_reason := none }] }

theorem error_chunk_message_preserved_witness :
    (∀ ev ∈ [wDeltaEvent], eventFinishes ev = false) ∧
    (generate_stream_response (BackendStream.failed "boom") =
        [ProtocolChunk.error "boom" "internal_error"] ∧
      ∃ ds : List String,
        generate_stream_response (BackendStream.events [wDeltaEvent] (some "boom")) =
          ProtocolChunk.start ::
            (ds.map ProtocolChunk.delta ++ [ProtocolChunk.error "boom" "internal_error"])) :=
  ⟨by decide, error_chunk_message_preserved [wDeltaEvent] "boom" (by decide)⟩

/-- A backend chunk whose only choice has an empty text fragment. -/
def emptyTextEvent : StreamChunk :=
  { choices := some [{ text := some "", finish_reason := none }] }

/-- C4 counterexample: a stream of one event whose fragment is the empty
string produces zero delta chunks, not one per pulled event. -/
theorem delta_per_event_counterexample :
    ¬ (generate_stream_response
          (BackendStream.events [emptyTextEvent] none)).countP isDeltaChunk =
        ([emptyTextEvent] : List StreamChunk).length := by
  decide

/-- C4 amended: among the consumed prefix of the backend stream (up to
and including the first finishing event), each event with a non-empty
text fragment maps to exactly one delta chunk carrying that fragment
verbatim, in order; events with an empty or missing fragment produce no
delta chunk. -/
theorem delta_chunks_match_fragments (evs : List StreamChunk) (err : Option String) :
    (generate_stream_response (BackendStream.events evs err)).filterMap deltaContent =
      (consumed evs).filterMap eventFragment := by
  have h := processStream_filterMap_delta err evs
  simp [generate_stream_response, deltaContent, h]

/-- C9: when the backend stream is exhausted without any chunk carrying a
finish_reason, the output is the start chunk, the delta chunks, and then
directly the terminator: no end chunk is ever emitted. -/
theorem exhausted_stream_no_end (evs : List StreamChunk)
    (h : ∀ ev ∈ evs, eventFinishes ev = false) :
    ∃ ds : List String,
      generate_stream_response (BackendStream.events evs none) =
        ProtocolChunk.start ::
          (ds.map ProtocolChunk.delta ++ [ProtocolChunk.terminator]) := by
  obtain ⟨ds, hd⟩ := processStream_no_finish none evs h
  exact ⟨ds, by simp [generate_stream_response, hd]; rfl⟩

theorem exhausted_stream_no_end_witness :
    (∀ ev ∈ [wDeltaEvent], eventFinishes ev = false) ∧
    (∃ ds : List String,
      generate_stream_response (BackendStream.events [wDeltaEvent] none) =
        ProtocolChunk.start ::
          (ds.map ProtocolChunk.delta ++ [ProtocolChunk.terminator])) :=
  ⟨by decide, exhausted_stream_no_end [wDeltaEvent] (by decide)⟩

/-- A backend completion whose usage totals are inconsistent: the server
copies them verbatim instead of recomputing the sum. -/
def badUsageCompletion : Completion :=
  { choices := [{ text := "hi", finish_reason := some "stop" }],
    usage := { prompt_tokens := 1, completion_tokens := 1, total_tokens := 3 } }

/-- C5 counterexample: chat_completion copies usage.total_tokens verbatim
from the backend result, so a backend result with total_tokens = 3 but
prompt_tokens = completion_tokens = 1 yields a response whose
total_tokens is not the sum of the other two counts. -/
theorem usage_total_counterexample :
    chat_completion badUsageCompletion =
      some { choices := [{ index := 0,
                           message := { role := "assistant", content := "hi" },
                           finish_reason := some "stop" }],
             usage := { prompt_tokens := 1, completion_tokens := 1, total_tokens := 3 } } ∧
    (3 : Nat) ≠ 1 + 1 := by
  constructor
  · rfl
  · decide

/-- C5 amended: the three usage counts are copied verbatim from the
backend result, so the response satisfies
total_tokens = prompt_tokens + completion_tokens exactly when the backend
result does (the server never recomputes the sum). -/
theorem usage_total_copied (completion : Completion) (resp : ChatResponse)
    (hr : chat_completion completion = some resp)
    (hsum : completion.usage.total_tokens =
      completion.usage.prompt_tokens + completion.usage.completion_tokens) :
    resp.usage.total_tokens = resp.usage.prompt_tokens + resp.usage.completion_tokens := by
  cases hcs : completion.choices with
  | nil => simp [chat_completion, hcs] at hr
  | cons c rest =>
    simp only [chat_completion, hcs, Option.some.injEq] at hr
    subst hr
    simpa using hsum

/-- A well-formed backend completion used by the C5 witness. -/
def okCompletion : Completion :=
  { choices := [{ text := "ok", finish_reason := none }],
    usage := { prompt_tokens := 2, completion_tokens := 3, total_tokens := 5 } }

/-- The response that chat_completion assembles from okCompletion. -/
def okResponse : ChatResponse :=
  { choices := [{ index := 0,
                  message := { role := "assistant", content := "ok" },
                  finish_reason := none }],
    usage := { prompt_tokens := 2, completion_tokens := 3, total_tokens := 5 } }

theorem usage_total_copied_witness :
    chat_completion okCompletion = some okResponse ∧
    okCompletion.usage.total_tokens =
      okCompletion.usage.prompt_tokens + okCompletion.usage.completion_tokens ∧
    okResponse.usage.total_tokens =
      okResponse.usage.prompt_tokens + okResponse.usage.completion_tokens :=
  ⟨by decide, by decide, usage_total_copied okCompletion okResponse (by decide) (by decide)⟩

/-- C6: for a backend result with at least one choice, the assembled
response carries the stripped text as the assistant message content, and
the finish_reason and the three usage counts verbatim from the backend
result. -/
theorem nonstreaming_response_assembly (completion : Completion) (c : NSChoice)
    (rest : List NSChoice) (h : completion.choices = c :: rest) :
    chat_completion completion =
      some { choices := [{ index := 0,
                           message := { role := "assistant", content := pyStrip c.text },
                           finish_reason := c.finish_reason }],
             usage := completion.usage } := by
  simp [chat_completion, h]

/-- A backend completion with padded text, used by the C6 witness. -/
def paddedCompletion : Completion :=
  { choices := [{ text := "  hi there\n", finish_reason := some "stop" }],
    usage := { prompt_tokens := 7, completion_tokens := 4, total_tokens := 11 } }

theorem nonstreaming_response_assembly_witness :
    paddedCompletion.choices =
      { text := "  hi there\n", finish_reason := some "stop" } :: [] ∧
    chat_completion paddedCompletion =
      some { choices := [{ index := 0,
                           message := { role := "assistant",
                                        content := pyStrip "  hi there\n" },
                           finish_reason := some "stop" }],
             usage := paddedCompletion.usage } ∧
    pyStrip "  hi there\n" = "hi there" :=
  ⟨rfl,
   nonstreaming_response_assembly paddedCompletion
     { text := "  hi there\n", finish_reason := some "stop" } [] rfl,
   by decide⟩

end ChatSaver
